import Mathlib

/-!
Shallow embedding of the tone playback and crossfade engine of the
Tree-of-Life prototype.

Embedded source:
  * `src/src/js/infra/messenger.js` — the audio engine (module-level state
    `audioContext`, `gainNode`, `oscillator`, `isPlaying`; operations
    `ensureAudioContext`, `playFrequency`, `transitionFrequency`, `stopSound`,
    `setVolume`, `getVolume`, `getIsPlaying`, `getAudioTime`, `setMuteState`).
  * `src/src/js/core/pure.js` (recovered file) — `isValidFrequency`.

Modelling conventions:
  * JavaScript numbers that flow into the engine are modelled by `JSNum`
    (NaN, the two infinities, or a finite rational); times, gains and volumes
    that the engine itself computes are finite rationals.
  * Web Audio nodes are modelled by their observable bookkeeping: each created
    oscillator gets a fresh natural-number id; the sets of started, connected
    and stopped oscillators are tracked, as is the list of gain automation
    events scheduled on the GainControl AudioParam and the list of
    audio-clock-scheduled oscillator stops.
  * `setTimeout` callbacks are modelled as pending timers `(delayMs, voiceId)`;
    the only deferred callback in the engine is the crossfade cleanup that
    disconnects the captured outgoing oscillator.
  * The platform audio device is a `Device` record of behaviour flags,
    including fault-injection flags for the error paths the source catches
    (a missing audio API, a declined resume, a throwing `stop()`/`disconnect()`).
  * `async` functions are embedded as functions on `EngineState`; a function
    whose JS counterpart can reject returns `Except EngineError _`.  The one
    awaited real-time delay (the 0.8 s fade inside `stopSound`) advances both
    the audio clock (seconds) and the wall clock (milliseconds);
    `Date.now()` reads the wall clock.
  * `gainValue` models reads/writes of `gainNode.gain.value` as performed by
    the program text (the evolution of the audio-rate automation between
    reads is abstracted away; no claim depends on it).
-/

namespace ToneEngine

/-- A JavaScript number as received by the engine from callers:
NaN, positive or negative infinity, or a finite value (modelled as a
rational). -/
inductive JSNum where
  | nan
  | posInf
  | negInf
  | fin (q : ℚ)
deriving DecidableEq

/-- `core/pure.js` `isValidFrequency`:
`typeof freq === 'number' && freq > 0 && freq < 20000`.
Comparisons against NaN are false; `posInf` fails `freq < 20000`, `negInf`
fails `freq > 0`. -/
def isValidFrequency : JSNum → Bool
  | .fin q => decide (0 < q) && decide (q < 20000)
  | _ => false

/-- Oscillator waveform; `messenger.js` only ever assigns `'sine'`. -/
inductive Waveform where
  | sine
deriving DecidableEq

/-- One created oscillator node: its id, the frequency assigned to
`oscillator.frequency.value`, and its waveform. -/
structure VoiceRec where
  id : ℕ
  freqHz : JSNum
  wave : Waveform
deriving DecidableEq

/-- A gain automation event scheduled on `gainNode.gain`, with the value and
the audio-clock time it is anchored at. -/
inductive GainEvent where
  | setValueAtTime (v t : ℚ)
  | linearRampToValueAtTime (v t : ℚ)
deriving DecidableEq

/-- Behaviour of the platform audio device, including fault-injection flags
for the failure paths the source code guards against:
`hasAPI` — `window.AudioContext || window.webkitAudioContext` exists;
`startSuspended` — a fresh context starts in the `'suspended'` state;
`resumeOk` — `audioContext.resume()` succeeds (false = autoplay blocked);
`stopThrows` — `oscillator.stop(...)` throws;
`disconnectThrows` — `oscillator.disconnect()` throws. -/
structure Device where
  hasAPI : Bool
  startSuspended : Bool
  resumeOk : Bool
  stopThrows : Bool
  disconnectThrows : Bool
deriving DecidableEq

/-- The module-level mutable state of `messenger.js` together with the
observable bookkeeping of the Web Audio graph and the event loop. -/
structure EngineState where
  /-- `audioContext !== null` -/
  ctxCreated : Bool
  /-- `audioContext.state === 'suspended'` -/
  suspended : Bool
  /-- `gainNode.gain.value` as read/written by the program text -/
  gainValue : ℚ
  /-- gain automation events scheduled on the GainControl AudioParam -/
  schedule : List GainEvent
  /-- source of fresh oscillator ids -/
  nextId : ℕ
  /-- the module-level `oscillator` variable (the current ToneVoice) -/
  oscillator : Option ℕ
  /-- the module-level `isPlaying` variable -/
  isPlaying : Bool
  /-- every oscillator ever created, most recent first -/
  voices : List VoiceRec
  /-- oscillators on which `start` was called -/
  started : Finset ℕ
  /-- oscillators currently connected to the GainControl node -/
  connected : Finset ℕ
  /-- oscillators whose stop has taken effect -/
  stopped : Finset ℕ
  /-- audio-clock-scheduled stops `(voice, time)` not yet fired -/
  stopsScheduled : List (ℕ × ℚ)
  /-- pending `setTimeout` cleanup callbacks `(delayMs, capturedVoice)` -/
  timers : List (ℚ × ℕ)
  /-- `audioContext.currentTime`, in seconds -/
  audioNow : ℚ
  /-- `Date.now()`, in milliseconds -/
  wallNow : ℚ
  /-- the `tol_volume` localStorage entry, parsed -/
  storedVolume : Option ℚ
deriving DecidableEq

/-- Initial module state: `audioContext = null`, `gainNode = null`,
`oscillator = null`, `isPlaying = false`, nothing created or scheduled. -/
def initState : EngineState where
  ctxCreated := false
  suspended := false
  gainValue := 0
  schedule := []
  nextId := 0
  oscillator := none
  isPlaying := false
  voices := []
  started := ∅
  connected := ∅
  stopped := ∅
  stopsScheduled := []
  timers := []
  audioNow := 0
  wallNow := 0
  storedVolume := none

/-- Rejections an engine promise can surface: the `Invalid frequency` throw,
or the error from constructing an audio context on a platform without the
audio API (`new AudioCtx()` with `AudioCtx` undefined — not caught by the
source). -/
inductive EngineError where
  | invalidFrequency (f : JSNum)
  | deviceUnavailable
deriving DecidableEq

/-- `messenger.js` `getVolume`: the stored `tol_volume` value, or the
default 75. -/
def getVolume (s : EngineState) : ℚ := s.storedVolume.getD 75

/-- `messenger.js` `ensureAudioContext`: lazily create the context and the
gain node (gain initialised to 0, connected to the destination); then, if the
context is suspended, try to resume it, swallowing a refusal (only an
info-level log).  Constructing the context on a platform without the audio
API throws, and that throw is NOT caught by the source. -/
def ensureAudioContext (d : Device) (s : EngineState) :
    Except EngineError EngineState :=
  if !s.ctxCreated && !d.hasAPI then .error .deviceUnavailable
  else
    let s1 := if s.ctxCreated then s
              else { s with ctxCreated := true, gainValue := 0,
                            suspended := d.startSuspended }
    .ok (if s1.suspended then
           (if d.resumeOk then { s1 with suspended := false } else s1)
         else s1)

/-- Advance both clocks across an awaited real-time delay of `dt` seconds. -/
def advanceClocks (dt : ℚ) (s : EngineState) : EngineState :=
  { s with audioNow := s.audioNow + dt, wallNow := s.wallNow + dt * 1000 }

/-- The part of `messenger.js` `stopSound` before its awaited delay
(lines 152–157): anchor the gain at its current value and schedule a linear
ramp to 0 over the fixed 0.8 s fade window.  PlaybackState is NOT touched
here. -/
def stopFadeOut (s : EngineState) : EngineState :=
  { s with schedule := s.schedule ++
      [GainEvent.setValueAtTime s.gainValue s.audioNow,
       GainEvent.linearRampToValueAtTime 0 (s.audioNow + 8/10)] }

/-- The part of `messenger.js` `stopSound` after its awaited delay
(lines 162–172): if an oscillator is current, stop it, disconnect it and
clear the reference; clear `isPlaying`.  A throw from `stop()` skips the
disconnect and lands in the catch clause, a throw from `disconnect()` lands
in the catch clause; the catch clause forcibly clears both PlaybackState
fields. -/
def stopTeardown (d : Device) (s : EngineState) : EngineState :=
  match s.oscillator with
  | some v =>
    if d.stopThrows then
      { s with oscillator := none, isPlaying := false }
    else if d.disconnectThrows then
      { s with stopped := insert v s.stopped,
               oscillator := none, isPlaying := false }
    else
      { s with stopped := insert v s.stopped,
               connected := s.connected.erase v,
               oscillator := none, isPlaying := false }
  | none => { s with isPlaying := false }

/-- `messenger.js` `stopSound`: early-return `null` when no oscillator is
current or `isPlaying` is false; otherwise schedule the 0.8 s fade-out,
await that duration, tear the voice down, and return `Date.now()`.  Every
failure inside the body is caught, so the promise never rejects (hence no
`Except` in the result type). -/
def stopSound (d : Device) (s : EngineState) : EngineState × Option ℚ :=
  if s.oscillator.isNone || !s.isPlaying then (s, none)
  else
    let s2 := stopTeardown d (advanceClocks (8/10) (stopFadeOut s))
    (s2, some s2.wallNow)

/-- The tail of `messenger.js` `playFrequency` (lines 62–78): create a fresh
sine oscillator at the requested frequency, connect it to the gain node,
start it, make it the current voice, schedule the 0.5 s fade-in from 0 to the
stored target volume anchored at the current audio-clock time, set
`isPlaying`, and return `Date.now()`. -/
def playCore (f : JSNum) (s : EngineState) : EngineState × ℚ :=
  let v := s.nextId
  let targetVolume := getVolume s / 100 * (3/10)
  let now := s.audioNow
  let s2 := { s with
    nextId := v + 1,
    oscillator := some v,
    voices := ⟨v, f, .sine⟩ :: s.voices,
    connected := insert v s.connected,
    started := insert v s.started,
    schedule := s.schedule ++
      [GainEvent.setValueAtTime 0 now,
       GainEvent.linearRampToValueAtTime targetVolume (now + 5/10)],
    isPlaying := true }
  (s2, s2.wallNow)

/-- `messenger.js` `playFrequency`: validate the frequency (throwing
`Invalid frequency` before any state change), await `ensureAudioContext`
(whose context-construction failure propagates), stop any existing
oscillator by awaiting `stopSound()`, then run the fresh-voice tail. -/
def playFrequency (d : Device) (f : JSNum) (s : EngineState) :
    Except EngineError (EngineState × ℚ) :=
  if !isValidFrequency f then .error (.invalidFrequency f)
  else
    match ensureAudioContext d s with
    | .error e => .error e
    | .ok s1 =>
      let s2 := if s1.oscillator.isSome then (stopSound d s1).1 else s1
      .ok (playCore f s2)

/-- The main branch of `messenger.js` `transitionFrequency`
(lines 96–141), entered with `oldV` the captured outgoing oscillator:
create and start the incoming sine oscillator immediately and make it the
module-level current voice; anchor the gain at its current value and
schedule the ramp down to 0 at the 0.35 s crossfade midpoint and back up to
the target volume at the end of the window; schedule the outgoing
oscillator stop at the midpoint (a throw from `stop` is caught); register
the `setTimeout` cleanup that will disconnect the captured outgoing
oscillator after `crossfadeTime / 2 * 1000 + 100` milliseconds; keep
`isPlaying` true. -/
def transCore (d : Device) (f : JSNum) (oldV : ℕ) (s : EngineState) :
    EngineState :=
  let crossfadeTime : ℚ := 35/100
  let now := s.audioNow
  let v := s.nextId
  let s2 := { s with
    nextId := v + 1,
    oscillator := some v,
    voices := ⟨v, f, .sine⟩ :: s.voices,
    connected := insert v s.connected,
    started := insert v s.started }
  let currentGain := s2.gainValue
  let targetVolume := getVolume s2 / 100 * (3/10)
  let s3 := { s2 with schedule := s2.schedule ++
    [GainEvent.setValueAtTime currentGain now,
     GainEvent.linearRampToValueAtTime 0 (now + crossfadeTime / 2),
     GainEvent.linearRampToValueAtTime targetVolume (now + crossfadeTime)] }
  let s4 := { s3 with stopsScheduled :=
                if d.stopThrows then s3.stopsScheduled
                else (oldV, now + crossfadeTime / 2) :: s3.stopsScheduled }
  { s4 with timers := (crossfadeTime / 2 * 1000 + 100, oldV) :: s4.timers,
            isPlaying := true }

/-- `messenger.js` `transitionFrequency`: validate the frequency; if no
oscillator is current or `isPlaying` is false, delegate to `playFrequency`
(returning its timestamp); otherwise await `ensureAudioContext` and run the
crossfade branch (which performs no awaited delay and returns `undefined`,
modelled as `none`). -/
def transitionFrequency (d : Device) (f : JSNum) (s : EngineState) :
    Except EngineError (EngineState × Option ℚ) :=
  if !isValidFrequency f then .error (.invalidFrequency f)
  else
    match s.oscillator, s.isPlaying with
    | some oldV, true =>
      match ensureAudioContext d s with
      | .error e => .error e
      | .ok s1 => .ok (transCore d f oldV s1, none)
    | _, _ =>
      match playFrequency d f s with
      | .error e => .error e
      | .ok (s1, ts) => .ok (s1, some ts)

/-- The internal gain ceiling computed by `messenger.js` `setVolume`
(lines 185–186): `Math.max(0, Math.min(100, volume)) / 100 * 0.3`. -/
def audioVolumeOf (volume : ℚ) : ℚ := max 0 (min 100 volume) / 100 * (3/10)

/-- `messenger.js` `setVolume`: early-return when the gain node does not yet
exist; otherwise anchor the gain at its current value and schedule a linear
ramp to the clamped ceiling over a fixed 0.1 s window (unconditionally —
there is no branch on whether a voice is active), then persist the raw
value to localStorage. -/
def setVolume (volume : ℚ) (s : EngineState) : EngineState :=
  if !s.ctxCreated then s
  else
    let now := s.audioNow
    let s1 := { s with schedule := s.schedule ++
      [GainEvent.setValueAtTime s.gainValue now,
       GainEvent.linearRampToValueAtTime (audioVolumeOf volume) (now + 1/10)] }
    { s1 with storedVolume := some volume }

/-- `messenger.js` `setMuteState`: await `ensureAudioContext`, then assign
`gainNode.gain.value` directly to 0 (muted) or 0.15 (unmuted). -/
def setMuteState (d : Device) (muted : Bool) (s : EngineState) :
    Except EngineError EngineState :=
  match ensureAudioContext d s with
  | .error e => .error e
  | .ok s1 => .ok { s1 with gainValue := if muted then 0 else 3/20 }

/-- `messenger.js` `getIsPlaying`. -/
def getIsPlaying (s : EngineState) : Bool := s.isPlaying

/-- `messenger.js` `getAudioTime`. -/
def getAudioTime (s : EngineState) : Option ℚ :=
  if s.ctxCreated then some s.audioNow else none

/-- A `setTimeout` cleanup callback registered by `transitionFrequency`
fires: it is removed from the pending list and the captured outgoing
oscillator is disconnected (a throw from `disconnect` is caught and only
logged).  Firing an identifier that is not pending is a no-op. -/
def fireTimer (d : Device) (t : ℚ × ℕ) (s : EngineState) : EngineState :=
  if t ∈ s.timers then
    let s1 := { s with timers := s.timers.erase t }
    if d.disconnectThrows then s1
    else { s1 with connected := s1.connected.erase t.2 }
  else s

/-- An audio-clock-scheduled oscillator stop takes effect: the entry leaves
the pending list and the voice is marked stopped. -/
def fireStop (t : ℕ × ℚ) (s : EngineState) : EngineState :=
  if t ∈ s.stopsScheduled then
    { s with stopsScheduled := s.stopsScheduled.erase t,
             stopped := insert t.1 s.stopped }
  else s

/-- One event of an engine history: a serialized caller invocation of one of
the public operations, or the firing of a pending timer or scheduled stop. -/
inductive Ev where
  | play (f : JSNum)
  | transition (f : JSNum)
  | stop
  | setVol (q : ℚ)
  | setMute (b : Bool)
  | fireTimer (t : ℚ × ℕ)
  | fireStop (t : ℕ × ℚ)

/-- The state transition of one event.  A rejected operation leaves the
state unchanged (in the source every throw happens before any mutation). -/
def step (d : Device) (s : EngineState) : Ev → EngineState
  | .play f =>
    match playFrequency d f s with
    | .ok (s1, _) => s1
    | .error _ => s
  | .transition f =>
    match transitionFrequency d f s with
    | .ok (s1, _) => s1
    | .error _ => s
  | .stop => (stopSound d s).1
  | .setVol q => setVolume q s
  | .setMute b =>
    match setMuteState d b s with
    | .ok s1 => s1
    | .error _ => s
  | .fireTimer t => fireTimer d t s
  | .fireStop t => fireStop t s

/-- Run a finite event history. -/
def run (d : Device) (s : EngineState) : List Ev → EngineState
  | [] => s
  | e :: es => run d (step d s e) es

/-- A nominal device: audio API present, resume allowed, no node faults. -/
def devNominal : Device :=
  { hasAPI := true, startSuspended := false, resumeOk := true,
    stopThrows := false, disconnectThrows := false }

/-- A faulty device whose `stop()` and `disconnect()` calls throw. -/
def devFaulty : Device :=
  { hasAPI := true, startSuspended := false, resumeOk := true,
    stopThrows := true, disconnectThrows := true }

/-- A platform without the Web Audio API. -/
def devNoAPI : Device :=
  { hasAPI := false, startSuspended := false, resumeOk := true,
    stopThrows := false, disconnectThrows := false }

/-- A concrete warm state: context created and running, voice 0 playing at
432 Hz, stored volume 50. -/
def sWarm : EngineState :=
  { ctxCreated := true, suspended := false, gainValue := 3/20,
    schedule := [], nextId := 1, oscillator := some 0, isPlaying := true,
    voices := [⟨0, .fin 432, .sine⟩], started := {0}, connected := {0},
    stopped := ∅, stopsScheduled := [], timers := [],
    audioNow := 2, wallNow := 100000, storedVolume := some 50 }

/-- A concrete idle state: context created and running, no voice active. -/
def sIdle : EngineState :=
  { ctxCreated := true, suspended := false, gainValue := 0,
    schedule := [], nextId := 0, oscillator := none, isPlaying := false,
    voices := [], started := ∅, connected := ∅,
    stopped := ∅, stopsScheduled := [], timers := [],
    audioNow := 5, wallNow := 0, storedVolume := none }

/-- A concrete settled history: cold-start play at 432 Hz followed by a full
stop; no crossfade, so no cleanup timer or scheduled stop is ever pending. -/
def evsC1 : List Ev := [.play (.fin 432), .stop]


/-! ### General lemmas about the engine transitions -/

/-- On a warm state (context created, running) `ensureAudioContext` is the
identity. -/
theorem ensureAudioContext_warm (d : Device) (s : EngineState)
    (hctx : s.ctxCreated = true) (hsus : s.suspended = false) :
    ensureAudioContext d s = .ok s := by
  simp [ensureAudioContext, hctx, hsus]

/-- `ensureAudioContext` either rejects with the device-construction error
or succeeds having changed at most the context fields (`ctxCreated`,
`suspended`, `gainValue`). -/
theorem ensureAudioContext_shape (d : Device) (s : EngineState) :
    ensureAudioContext d s = .error .deviceUnavailable ∨
    ∃ c b g, ensureAudioContext d s =
      .ok { s with ctxCreated := c, suspended := b, gainValue := g } := by
  unfold ensureAudioContext
  dsimp only
  split_ifs <;>
    first
    | (left; rfl)
    | (right; exact ⟨_, _, _, rfl⟩)

/-- `ensureAudioContext` only touches the context fields (`ctxCreated`,
`suspended`, `gainValue`); every other field of a successful result is
unchanged. -/
theorem ensureAudioContext_ok (d : Device) (s s1 : EngineState)
    (h : ensureAudioContext d s = .ok s1) :
    s1.oscillator = s.oscillator ∧ s1.isPlaying = s.isPlaying ∧
    s1.connected = s.connected ∧ s1.timers = s.timers ∧
    s1.nextId = s.nextId ∧ s1.voices = s.voices ∧ s1.started = s.started ∧
    s1.stopped = s.stopped ∧ s1.stopsScheduled = s.stopsScheduled ∧
    s1.schedule = s.schedule ∧ s1.audioNow = s.audioNow ∧
    s1.wallNow = s.wallNow ∧ s1.storedVolume = s.storedVolume := by
  rcases ensureAudioContext_shape d s with hsh | ⟨c, b, g, hsh⟩
  · rw [hsh] at h
    exact Except.noConfusion h
  · rw [hsh] at h
    injection h with h
    subst h
    exact ⟨rfl, rfl, rfl, rfl, rfl, rfl, rfl, rfl, rfl, rfl, rfl, rfl, rfl⟩

/-- PlaybackState coupling invariant of the source module: `isPlaying` is
exactly the presence of a current oscillator. -/
def playInv (s : EngineState) : Prop := s.isPlaying = s.oscillator.isSome

/-- Connectivity invariant: every oscillator connected to the gain node is
either the current voice or captured by a pending cleanup timer. -/
def connInv (s : EngineState) : Prop :=
  ∀ v ∈ s.connected, s.oscillator = some v ∨ v ∈ s.timers.map Prod.snd

/-- The conjunction of the two engine invariants. -/
def Inv (s : EngineState) : Prop := playInv s ∧ connInv s

theorem inv_initState : Inv initState := by
  constructor
  · rfl
  · intro v hv
    simp [initState] at hv

theorem inv_of_eq_fields (s s2 : EngineState) (h : Inv s)
    (ho : s2.oscillator = s.oscillator) (hp : s2.isPlaying = s.isPlaying)
    (hc : s2.connected = s.connected) (ht : s2.timers = s.timers) :
    Inv s2 := by
  obtain ⟨h1, h2⟩ := h
  constructor
  · rw [playInv, hp, ho]; exact h1
  · intro v hv
    rw [hc] at hv
    rw [ho, ht]
    exact h2 v hv

theorem inv_stopSound (d : Device) (s : EngineState)
    (hst : d.stopThrows = false) (hdt : d.disconnectThrows = false)
    (h : Inv s) :
    Inv (stopSound d s).1 ∧
    (s.oscillator.isSome = true → (stopSound d s).1.oscillator = none) := by
  obtain ⟨h1, h2⟩ := h
  cases hosc : s.oscillator with
  | none =>
    have hres : stopSound d s = (s, none) := by simp [stopSound, hosc]
    rw [hres]
    refine ⟨⟨h1, h2⟩, fun hc => ?_⟩
    exact absurd hc (by simp)
  | some v =>
    have hp : s.isPlaying = true := by
      rw [playInv, hosc] at h1
      exact h1
    have hres : (stopSound d s).1 =
        stopTeardown d (advanceClocks (8/10) (stopFadeOut s)) := by
      simp [stopSound, hosc, hp]
    have htear : stopTeardown d (advanceClocks (8/10) (stopFadeOut s)) =
        { advanceClocks (8/10) (stopFadeOut s) with
            stopped := insert v (advanceClocks (8/10) (stopFadeOut s)).stopped,
            connected := (advanceClocks (8/10) (stopFadeOut s)).connected.erase v,
            oscillator := none, isPlaying := false } := by
      simp [stopTeardown, advanceClocks, stopFadeOut, hosc, hst, hdt]
    rw [hres, htear]
    refine ⟨⟨rfl, ?_⟩, fun _ => rfl⟩
    intro w hw
    have hw2 : w ∈ s.connected.erase v := by
      simpa [advanceClocks, stopFadeOut] using hw
    obtain ⟨hne, hmem⟩ := Finset.mem_erase.mp hw2
    rcases h2 w hmem with hcur | htim
    · rw [hosc] at hcur
      exact absurd (Option.some.inj hcur).symm hne
    · right
      simpa [advanceClocks, stopFadeOut] using htim

theorem inv_playCore (f : JSNum) (s : EngineState) (h : Inv s)
    (hosc : s.oscillator = none) : Inv (playCore f s).1 := by
  obtain ⟨_, h2⟩ := h
  constructor
  · rfl
  · intro w hw
    simp only [playCore, Finset.mem_insert] at hw
    rcases hw with hv | hmem
    · simp [playCore, hv]
    · rcases h2 w hmem with hcur | htim
      · rw [hosc] at hcur
        cases hcur
      · simp [playCore]
        right
        simpa using htim

theorem inv_transCore (d : Device) (f : JSNum) (v : ℕ) (s : EngineState)
    (h : Inv s) (hosc : s.oscillator = some v) : Inv (transCore d f v s) := by
  obtain ⟨_, h2⟩ := h
  constructor
  · rfl
  · intro w hw
    have hw2 : w = s.nextId ∨ w ∈ s.connected := by
      simpa [transCore] using hw
    rcases hw2 with rfl | hmem
    · left
      rfl
    · right
      have hti : (transCore d f v s).timers =
          ((35:ℚ)/100/2*1000 + 100, v) :: s.timers := rfl
      rw [hti, List.map_cons]
      rcases h2 w hmem with hcur | htim
      · rw [hosc] at hcur
        have hvw : w = v := (Option.some.inj hcur).symm
        rw [hvw]
        exact List.mem_cons_self _ _
      · exact List.mem_cons_of_mem _ htim

theorem inv_fireTimer (d : Device) (hdt : d.disconnectThrows = false)
    (t : ℚ × ℕ) (s : EngineState) (h : Inv s) : Inv (fireTimer d t s) := by
  obtain ⟨h1, h2⟩ := h
  by_cases hmem : t ∈ s.timers
  · have hres : fireTimer d t s =
        { s with timers := s.timers.erase t,
                 connected := s.connected.erase t.2 } := by
      simp [fireTimer, hmem, hdt]
    rw [hres]
    refine ⟨h1, ?_⟩
    intro w hw
    obtain ⟨hne, hmem2⟩ := Finset.mem_erase.mp hw
    rcases h2 w hmem2 with hcur | htim
    · exact Or.inl hcur
    · right
      obtain ⟨p, hpmem, hpw⟩ := List.mem_map.mp htim
      have hpt : p ≠ t := by
        intro hcon
        rw [hcon] at hpw
        exact hne hpw.symm
      exact List.mem_map.mpr ⟨p, (List.mem_erase_of_ne hpt).mpr hpmem, hpw⟩
  · have hres : fireTimer d t s = s := by simp [fireTimer, hmem]
    rw [hres]
    exact ⟨h1, h2⟩

theorem inv_fireStop (t : ℕ × ℚ) (s : EngineState) (h : Inv s) :
    Inv (fireStop t s) := by
  unfold fireStop
  split_ifs <;> exact h

theorem inv_setVolume (q : ℚ) (s : EngineState) (h : Inv s) :
    Inv (setVolume q s) := by
  unfold setVolume
  split_ifs <;> exact h

theorem inv_playResult (d : Device) (hst : d.stopThrows = false)
    (hdt : d.disconnectThrows = false) (f : JSNum) (s s1 : EngineState)
    (ts : ℚ) (h : Inv s) (hres : playFrequency d f s = .ok (s1, ts)) :
    Inv s1 := by
  unfold playFrequency at hres
  by_cases hv : (!isValidFrequency f) = true
  · rw [if_pos hv] at hres
    exact Except.noConfusion hres
  · rw [if_neg hv] at hres
    cases hens : ensureAudioContext d s with
    | error e2 =>
      rw [hens] at hres
      exact Except.noConfusion hres
    | ok se =>
      rw [hens] at hres
      have hres2 : Except.ok
          (playCore f (if se.oscillator.isSome = true
                       then (stopSound d se).1 else se)) =
          (Except.ok (s1, ts) : Except EngineError (EngineState × ℚ)) := hres
      obtain ⟨ho, hp, hc, ht, _⟩ := ensureAudioContext_ok d s se hens
      have hse : Inv se := inv_of_eq_fields s se h ho hp hc ht
      by_cases hsome : se.oscillator.isSome = true
      · rw [if_pos hsome] at hres2
        have h2 := inv_stopSound d se hst hdt hse
        have hfst : (playCore f ((stopSound d se).1)).1 = s1 :=
          congrArg Prod.fst (Except.ok.inj hres2)
        rw [← hfst]
        exact inv_playCore f _ h2.1 (h2.2 hsome)
      · rw [if_neg hsome] at hres2
        have hnone : se.oscillator = none := by
          cases hco : se.oscillator with
          | none => rfl
          | some v => exact absurd (by rw [hco]; rfl) hsome
        have hfst : (playCore f se).1 = s1 :=
          congrArg Prod.fst (Except.ok.inj hres2)
        rw [← hfst]
        exact inv_playCore f se hse hnone

theorem inv_step (d : Device) (hst : d.stopThrows = false)
    (hdt : d.disconnectThrows = false) (s : EngineState) (e : Ev)
    (h : Inv s) : Inv (step d s e) := by
  cases e with
  | play f =>
    show Inv (match playFrequency d f s with
              | .ok (s1, _) => s1
              | .error _ => s)
    cases hres : playFrequency d f s with
    | error e2 => exact h
    | ok r =>
      obtain ⟨s1, ts⟩ := r
      exact inv_playResult d hst hdt f s s1 ts h hres
  | transition f =>
    show Inv (match transitionFrequency d f s with
              | .ok (s1, _) => s1
              | .error _ => s)
    cases hres : transitionFrequency d f s with
    | error e2 => exact h
    | ok r =>
      obtain ⟨s1, ts⟩ := r
      unfold transitionFrequency at hres
      by_cases hv : (!isValidFrequency f) = true
      · rw [if_pos hv] at hres
        exact Except.noConfusion hres
      · rw [if_neg hv] at hres
        cases hosc : s.oscillator with
        | some oldV =>
          cases hip : s.isPlaying with
          | true =>
            rw [hosc, hip] at hres
            cases hens : ensureAudioContext d s with
            | error e2 =>
              rw [hens] at hres
              exact Except.noConfusion hres
            | ok se =>
              rw [hens] at hres
              have hres2 : Except.ok (transCore d f oldV se, none) =
                  (Except.ok (s1, ts) :
                    Except EngineError (EngineState × Option ℚ)) := hres
              obtain ⟨ho, hp, hc, ht, _⟩ := ensureAudioContext_ok d s se hens
              have hse : Inv se := inv_of_eq_fields s se h ho hp hc ht
              have hfst : transCore d f oldV se = s1 :=
                congrArg Prod.fst (Except.ok.inj hres2)
              rw [← hfst]
              exact inv_transCore d f oldV se hse (ho.trans hosc)
          | false =>
            rw [hosc, hip] at hres
            cases hpf : playFrequency d f s with
            | error e2 =>
              rw [hpf] at hres
              exact Except.noConfusion hres
            | ok r2 =>
              obtain ⟨s2, ts2⟩ := r2
              rw [hpf] at hres
              have hres2 : Except.ok (s2, some ts2) =
                  (Except.ok (s1, ts) :
                    Except EngineError (EngineState × Option ℚ)) := hres
              have hfst : s2 = s1 := congrArg Prod.fst (Except.ok.inj hres2)
              rw [← hfst]
              exact inv_playResult d hst hdt f s s2 ts2 h hpf
        | none =>
          rw [hosc] at hres
          cases hpf : playFrequency d f s with
          | error e2 =>
            rw [hpf] at hres
            exact Except.noConfusion hres
          | ok r2 =>
            obtain ⟨s2, ts2⟩ := r2
            rw [hpf] at hres
            have hres2 : Except.ok (s2, some ts2) =
                (Except.ok (s1, ts) :
                  Except EngineError (EngineState × Option ℚ)) := hres
            have hfst : s2 = s1 := congrArg Prod.fst (Except.ok.inj hres2)
            rw [← hfst]
            exact inv_playResult d hst hdt f s s2 ts2 h hpf
  | stop => exact (inv_stopSound d s hst hdt h).1
  | setVol q => exact inv_setVolume q s h
  | setMute b =>
    show Inv (match setMuteState d b s with
              | .ok s1 => s1
              | .error _ => s)
    cases hres : setMuteState d b s with
    | error e2 => exact h
    | ok s1 =>
      unfold setMuteState at hres
      cases hens : ensureAudioContext d s with
      | error e2 =>
        rw [hens] at hres
        exact Except.noConfusion hres
      | ok se =>
        rw [hens] at hres
        have hres2 : Except.ok { se with gainValue := if b then (0:ℚ) else 3/20 } =
            (Except.ok s1 : Except EngineError EngineState) := hres
        obtain ⟨ho, hp, hc, ht, _⟩ := ensureAudioContext_ok d s se hens
        have hinj := Except.ok.inj hres2
        rw [← hinj]
        exact inv_of_eq_fields s _ h ho hp hc ht
  | fireTimer t => exact inv_fireTimer d hdt t s h
  | fireStop t => exact inv_fireStop t s h

theorem inv_run (d : Device) (hst : d.stopThrows = false)
    (hdt : d.disconnectThrows = false) (evs : List Ev) (s : EngineState)
    (h : Inv s) : Inv (run d s evs) := by
  induction evs generalizing s with
  | nil => exact h
  | cons e es ih => exact ih (step d s e) (inv_step d hst hdt s e h)

/-- Successful `playFrequency` results always come from the fresh-voice
tail `playCore`. -/
theorem playFrequency_ok_shape (d : Device) (f : JSNum) (s s1 : EngineState)
    (ts : ℚ) (hres : playFrequency d f s = .ok (s1, ts)) :
    ∃ s2, s1 = (playCore f s2).1 := by
  unfold playFrequency at hres
  by_cases hv : (!isValidFrequency f) = true
  · rw [if_pos hv] at hres
    exact Except.noConfusion hres
  · rw [if_neg hv] at hres
    cases hens : ensureAudioContext d s with
    | error e2 =>
      rw [hens] at hres
      exact Except.noConfusion hres
    | ok se =>
      rw [hens] at hres
      have hres2 : Except.ok
          (playCore f (if se.oscillator.isSome = true
                       then (stopSound d se).1 else se)) =
          (Except.ok (s1, ts) : Except EngineError (EngineState × ℚ)) := hres
      exact ⟨_, (congrArg Prod.fst (Except.ok.inj hres2)).symm⟩

/-- Successful `transitionFrequency` results come either from the crossfade
branch `transCore` or, by delegation, from `playCore`. -/
theorem transitionFrequency_ok_shape (d : Device) (f : JSNum)
    (s s1 : EngineState) (ts : Option ℚ)
    (hres : transitionFrequency d f s = .ok (s1, ts)) :
    (∃ v s2, s1 = transCore d f v s2) ∨ (∃ s2, s1 = (playCore f s2).1) := by
  unfold transitionFrequency at hres
  by_cases hv : (!isValidFrequency f) = true
  · rw [if_pos hv] at hres
    exact Except.noConfusion hres
  · rw [if_neg hv] at hres
    cases hosc : s.oscillator with
    | some oldV =>
      cases hip : s.isPlaying with
      | true =>
        rw [hosc, hip] at hres
        cases hens : ensureAudioContext d s with
        | error e2 =>
          rw [hens] at hres
          exact Except.noConfusion hres
        | ok se =>
          rw [hens] at hres
          have hres2 : Except.ok (transCore d f oldV se, none) =
              (Except.ok (s1, ts) :
                Except EngineError (EngineState × Option ℚ)) := hres
          exact Or.inl ⟨oldV, se,
            (congrArg Prod.fst (Except.ok.inj hres2)).symm⟩
      | false =>
        rw [hosc, hip] at hres
        cases hpf : playFrequency d f s with
        | error e2 =>
          rw [hpf] at hres
          exact Except.noConfusion hres
        | ok r2 =>
          obtain ⟨s2, ts2⟩ := r2
          rw [hpf] at hres
          have hres2 : Except.ok (s2, some ts2) =
              (Except.ok (s1, ts) :
                Except EngineError (EngineState × Option ℚ)) := hres
          have hs : s2 = s1 := congrArg Prod.fst (Except.ok.inj hres2)
          obtain ⟨s3, h3⟩ := playFrequency_ok_shape d f s s2 ts2 hpf
          exact Or.inr ⟨s3, hs ▸ h3⟩
    | none =>
      rw [hosc] at hres
      cases hpf : playFrequency d f s with
      | error e2 =>
        rw [hpf] at hres
        exact Except.noConfusion hres
      | ok r2 =>
        obtain ⟨s2, ts2⟩ := r2
        rw [hpf] at hres
        have hres2 : Except.ok (s2, some ts2) =
            (Except.ok (s1, ts) :
              Except EngineError (EngineState × Option ℚ)) := hres
        have hs : s2 = s1 := congrArg Prod.fst (Except.ok.inj hres2)
        obtain ⟨s3, h3⟩ := playFrequency_ok_shape d f s s2 ts2 hpf
        exact Or.inr ⟨s3, hs ▸ h3⟩

/-- The teardown tail of `stopSound` always leaves `isPlaying` equal to the
presence of a current voice, under every device behaviour. -/
theorem playInv_stopTeardown (d : Device) (t : EngineState) :
    playInv (stopTeardown d t) := by
  unfold stopTeardown
  cases ht : t.oscillator with
  | some v => split_ifs <;> rfl
  | none => rfl

/-- `stopSound` preserves the playback coupling under every device
behaviour (both its success and its catch path clear both fields). -/
theorem playInv_stopSound (d : Device) (s : EngineState) (h : playInv s) :
    playInv (stopSound d s).1 := by
  cases hosc : s.oscillator with
  | none =>
    have hres : stopSound d s = (s, none) := by simp [stopSound, hosc]
    rw [hres]
    exact h
  | some v =>
    cases hip : s.isPlaying with
    | false =>
      have hres : stopSound d s = (s, none) := by simp [stopSound, hip]
      rw [hres]
      exact h
    | true =>
      have hres : (stopSound d s).1 =
          stopTeardown d (advanceClocks (8/10) (stopFadeOut s)) := by
        simp [stopSound, hosc, hip]
      rw [hres]
      exact playInv_stopTeardown d _

theorem playInv_playCore (f : JSNum) (s : EngineState) :
    playInv (playCore f s).1 := rfl

theorem playInv_transCore (d : Device) (f : JSNum) (v : ℕ)
    (s : EngineState) : playInv (transCore d f v s) := rfl

/-- Every event preserves the playback coupling, under every device
behaviour. -/
theorem playInv_step (d : Device) (s : EngineState) (e : Ev)
    (h : playInv s) : playInv (step d s e) := by
  cases e with
  | play f =>
    show playInv (match playFrequency d f s with
                  | .ok (s1, _) => s1
                  | .error _ => s)
    cases hres : playFrequency d f s with
    | error e2 => exact h
    | ok r =>
      obtain ⟨s1, ts⟩ := r
      obtain ⟨s2, h2⟩ := playFrequency_ok_shape d f s s1 ts hres
      rw [h2]
      exact playInv_playCore f s2
  | transition f =>
    show playInv (match transitionFrequency d f s with
                  | .ok (s1, _) => s1
                  | .error _ => s)
    cases hres : transitionFrequency d f s with
    | error e2 => exact h
    | ok r =>
      obtain ⟨s1, ts⟩ := r
      rcases transitionFrequency_ok_shape d f s s1 ts hres with
        ⟨v, s2, h2⟩ | ⟨s2, h2⟩
      · rw [h2]
        exact playInv_transCore d f v s2
      · rw [h2]
        exact playInv_playCore f s2
  | stop => exact playInv_stopSound d s h
  | setVol q =>
    show playInv (setVolume q s)
    unfold setVolume
    split_ifs <;> exact h
  | setMute b =>
    show playInv (match setMuteState d b s with
                  | .ok s1 => s1
                  | .error _ => s)
    cases hres : setMuteState d b s with
    | error e2 => exact h
    | ok s1 =>
      unfold setMuteState at hres
      cases hens : ensureAudioContext d s with
      | error e2 =>
        rw [hens] at hres
        exact Except.noConfusion hres
      | ok se =>
        rw [hens] at hres
        have hres2 : Except.ok
            { se with gainValue := if b then (0:ℚ) else 3/20 } =
            (Except.ok s1 : Except EngineError EngineState) := hres
        obtain ⟨ho, hp, _⟩ := ensureAudioContext_ok d s se hens
        rw [← Except.ok.inj hres2]
        show se.isPlaying = se.oscillator.isSome
        rw [hp, ho]
        exact h
  | fireTimer t =>
    show playInv (fireTimer d t s)
    unfold fireTimer
    split_ifs <;> exact h
  | fireStop t =>
    show playInv (fireStop t s)
    unfold fireStop
    split_ifs <;> exact h

theorem playInv_run (d : Device) (evs : List Ev) (s : EngineState)
    (h : playInv s) : playInv (run d s evs) := by
  induction evs generalizing s with
  | nil => exact h
  | cons e es ih => exact ih (step d s e) (playInv_step d s e h)

/-- `setVolume` never touches the current voice or `isPlaying`. -/
theorem setVolume_playback (q : ℚ) (s : EngineState) :
    (setVolume q s).oscillator = s.oscillator ∧
    (setVolume q s).isPlaying = s.isPlaying := by
  unfold setVolume
  split_ifs <;> exact ⟨rfl, rfl⟩

/-- `setMuteState` never touches the current voice or `isPlaying`
(it only assigns the gain value), on its success and error paths alike. -/
theorem setMuteState_playback (d : Device) (b : Bool) (s : EngineState) :
    (step d s (.setMute b)).oscillator = s.oscillator ∧
    (step d s (.setMute b)).isPlaying = s.isPlaying := by
  show ((match setMuteState d b s with
         | .ok s1 => s1
         | .error _ => s).oscillator = s.oscillator ∧
        (match setMuteState d b s with
         | .ok s1 => s1
         | .error _ => s).isPlaying = s.isPlaying)
  cases hres : setMuteState d b s with
  | error e2 => exact ⟨rfl, rfl⟩
  | ok s1 =>
    unfold setMuteState at hres
    cases hens : ensureAudioContext d s with
    | error e2 =>
      rw [hens] at hres
      exact Except.noConfusion hres
    | ok se =>
      rw [hens] at hres
      have hres2 : Except.ok
          { se with gainValue := if b then (0:ℚ) else 3/20 } =
          (Except.ok s1 : Except EngineError EngineState) := hres
      obtain ⟨ho, hp, _⟩ := ensureAudioContext_ok d s se hens
      rw [← Except.ok.inj hres2]
      exact ⟨ho, hp⟩

/-- `playFrequency` rejects with the `Invalid frequency` error exactly on
invalid inputs (on valid inputs a rejection can only be the
device-construction error). -/
theorem playFrequency_invalid_iff (d : Device) (f : JSNum)
    (s : EngineState) :
    (∃ g, playFrequency d f s = .error (.invalidFrequency g)) ↔
    isValidFrequency f = false := by
  constructor
  · rintro ⟨g, hg⟩
    by_contra hval
    rw [Bool.not_eq_false] at hval
    have hcond : ¬((!isValidFrequency f) = true) := by simp [hval]
    unfold playFrequency at hg
    rw [if_neg hcond] at hg
    rcases ensureAudioContext_shape d s with hsh | ⟨c, b2, g2, hsh⟩ <;>
      (rw [hsh] at hg; simp at hg)
  · intro hval
    have hcond : (!isValidFrequency f) = true := by simp [hval]
    refine ⟨f, ?_⟩
    unfold playFrequency
    rw [if_pos hcond]

/-- As `playFrequency_invalid_iff`, for `transitionFrequency`. -/
theorem transitionFrequency_invalid_iff (d : Device) (f : JSNum)
    (s : EngineState) :
    (∃ g, transitionFrequency d f s = .error (.invalidFrequency g)) ↔
    isValidFrequency f = false := by
  constructor
  · rintro ⟨g, hg⟩
    by_contra hval
    rw [Bool.not_eq_false] at hval
    have hcond : ¬((!isValidFrequency f) = true) := by simp [hval]
    unfold transitionFrequency at hg
    rw [if_neg hcond] at hg
    cases hosc : s.oscillator with
    | some oldV =>
      cases hip : s.isPlaying with
      | true =>
        rw [hosc, hip] at hg
        rcases ensureAudioContext_shape d s with hsh | ⟨c, b2, g2, hsh⟩ <;>
          (rw [hsh] at hg; simp at hg)
      | false =>
        rw [hosc, hip] at hg
        cases hpf : playFrequency d f s with
        | error e2 =>
          rw [hpf] at hg
          simp at hg
          rw [hg] at hpf
          have := (playFrequency_invalid_iff d f s).mp ⟨g, hpf⟩
          rw [hval] at this
          exact Bool.noConfusion this
        | ok r2 =>
          obtain ⟨s2, ts2⟩ := r2
          rw [hpf] at hg
          simp at hg
    | none =>
      rw [hosc] at hg
      cases hpf : playFrequency d f s with
      | error e2 =>
        rw [hpf] at hg
        simp at hg
        rw [hg] at hpf
        have := (playFrequency_invalid_iff d f s).mp ⟨g, hpf⟩
        rw [hval] at this
        exact Bool.noConfusion this
      | ok r2 =>
        obtain ⟨s2, ts2⟩ := r2
        rw [hpf] at hg
        simp at hg
  · intro hval
    have hcond : (!isValidFrequency f) = true := by simp [hval]
    refine ⟨f, ?_⟩
    unfold transitionFrequency
    rw [if_pos hcond]

/-- On a warm state, a valid frequency and an active voice,
`transitionFrequency` takes the crossfade branch. -/
theorem transitionFrequency_warm (d : Device) (f : JSNum) (s : EngineState)
    (v : ℕ) (hf : isValidFrequency f = true) (hosc : s.oscillator = some v)
    (hp : s.isPlaying = true) (hctx : s.ctxCreated = true)
    (hsus : s.suspended = false) :
    transitionFrequency d f s = .ok (transCore d f v s, none) := by
  have hcond : ¬((!isValidFrequency f) = true) := by simp [hf]
  unfold transitionFrequency
  rw [if_neg hcond, hosc, hp]
  show (match ensureAudioContext d s with
        | Except.error e => Except.error e
        | Except.ok s1 => Except.ok (transCore d f v s1, none) :
        Except EngineError (EngineState × Option ℚ)) =
    Except.ok (transCore d f v s, none)
  rw [ensureAudioContext_warm d s hctx hsus]

/-- On a warm state with no active voice, `playFrequency` runs the
fresh-voice tail directly. -/
theorem playFrequency_cold (d : Device) (f : JSNum) (t : EngineState)
    (hf : isValidFrequency f = true) (htosc : t.oscillator = none)
    (htctx : t.ctxCreated = true) (htsus : t.suspended = false) :
    playFrequency d f t = .ok (playCore f t) := by
  have hcond : ¬((!isValidFrequency f) = true) := by simp [hf]
  unfold playFrequency
  rw [if_neg hcond, ensureAudioContext_warm d t htctx htsus]
  simp [htosc]

/-- On a warm state with an active voice, `playFrequency` awaits the full
`stopSound` and only then runs the fresh-voice tail. -/
theorem playFrequency_restart (d : Device) (f : JSNum) (s : EngineState)
    (v : ℕ) (hf : isValidFrequency f = true) (hosc : s.oscillator = some v)
    (hctx : s.ctxCreated = true) (hsus : s.suspended = false) :
    playFrequency d f s = .ok (playCore f ((stopSound d s).1)) := by
  have hcond : ¬((!isValidFrequency f) = true) := by simp [hf]
  unfold playFrequency
  rw [if_neg hcond, ensureAudioContext_warm d s hctx hsus]
  simp [hosc]

/-- The teardown tail of `stopSound`, entered with a current voice: on every
device behaviour it clears both PlaybackState fields; when `stop()` throws,
the voice is not disconnected (the catch clause skips the disconnect);
the clocks are untouched. -/
theorem stopTeardown_of_some (d : Device) (t : EngineState) (v : ℕ)
    (ht : t.oscillator = some v) :
    (stopTeardown d t).oscillator = none ∧
    (stopTeardown d t).isPlaying = false ∧
    (d.stopThrows = true → (stopTeardown d t).connected = t.connected) ∧
    (stopTeardown d t).wallNow = t.wallNow ∧
    (stopTeardown d t).timers = t.timers ∧
    (stopTeardown d t).stopsScheduled = t.stopsScheduled := by
  unfold stopTeardown
  rw [ht]
  split_ifs with h1 h2
  · exact ⟨rfl, rfl, fun _ => rfl, rfl, rfl, rfl⟩
  · exact ⟨rfl, rfl, fun hcon => absurd hcon h1, rfl, rfl, rfl⟩
  · exact ⟨rfl, rfl, fun hcon => absurd hcon h1, rfl, rfl, rfl⟩

/-- With an active voice, `stopSound` passes its guard and runs fade-out,
awaited delay, then teardown. -/
theorem stopSound_active (d : Device) (s : EngineState) (v : ℕ)
    (hosc : s.oscillator = some v) (hp : s.isPlaying = true) :
    (stopSound d s).1 =
      stopTeardown d (advanceClocks (8/10) (stopFadeOut s)) ∧
    (stopSound d s).2 = some (stopSound d s).1.wallNow := by
  constructor <;> simp [stopSound, hosc, hp]

/-- With an audio API present, `ensureAudioContext` cannot fail. -/
theorem ensureAudioContext_total (d : Device) (s : EngineState)
    (hAPI : d.hasAPI = true) : ∃ se, ensureAudioContext d s = .ok se := by
  rcases ensureAudioContext_shape d s with hsh | ⟨c, b, g, hsh⟩
  · exfalso
    unfold ensureAudioContext at hsh
    rw [hAPI] at hsh
    simp at hsh
  · exact ⟨_, hsh⟩

/-- With an audio API and a valid frequency, `playFrequency` resolves, on
every state and every further device behaviour (declined resume, throwing
teardown calls are all absorbed). -/
theorem playFrequency_total (d : Device) (f : JSNum) (s : EngineState)
    (hAPI : d.hasAPI = true) (hf : isValidFrequency f = true) :
    ∃ r, playFrequency d f s = .ok r := by
  obtain ⟨se, hens⟩ := ensureAudioContext_total d s hAPI
  have hcond : ¬((!isValidFrequency f) = true) := by simp [hf]
  exact ⟨_, by unfold playFrequency; rw [if_neg hcond, hens]⟩

/-- As `playFrequency_total`, for `transitionFrequency`. -/
theorem transitionFrequency_total (d : Device) (f : JSNum)
    (s : EngineState) (hAPI : d.hasAPI = true)
    (hf : isValidFrequency f = true) :
    ∃ r, transitionFrequency d f s = .ok r := by
  have hcond : ¬((!isValidFrequency f) = true) := by simp [hf]
  cases hosc : s.oscillator with
  | some oldV =>
    cases hip : s.isPlaying with
    | true =>
      obtain ⟨se, hens⟩ := ensureAudioContext_total d s hAPI
      exact ⟨_, by unfold transitionFrequency;
                   rw [if_neg hcond, hosc, hip, hens]⟩
    | false =>
      obtain ⟨r, hr⟩ := playFrequency_total d f s hAPI hf
      obtain ⟨r1, r2⟩ := r
      exact ⟨_, by unfold transitionFrequency;
                   rw [if_neg hcond, hosc, hip, hr]⟩
  | none =>
    obtain ⟨r, hr⟩ := playFrequency_total d f s hAPI hf
    obtain ⟨r1, r2⟩ := r
    exact ⟨_, by unfold transitionFrequency; rw [if_neg hcond, hosc, hr]⟩

/-- With an audio API, the only rejection `playFrequency` surfaces is the
`Invalid frequency` one. -/
theorem playFrequency_error_invalid (d : Device) (f : JSNum)
    (s : EngineState) (e : EngineError) (hAPI : d.hasAPI = true)
    (hpe : playFrequency d f s = .error e) : e = .invalidFrequency f := by
  by_cases hf : isValidFrequency f = true
  · obtain ⟨r, hr⟩ := playFrequency_total d f s hAPI hf
    rw [hr] at hpe
    exact Except.noConfusion hpe
  · have hval : isValidFrequency f = false := by
      cases hb : isValidFrequency f
      · rfl
      · exact absurd hb hf
    have hcond : (!isValidFrequency f) = true := by simp [hval]
    unfold playFrequency at hpe
    rw [if_pos hcond] at hpe
    exact (Except.error.inj hpe).symm

/-- As `playFrequency_error_invalid`, for `transitionFrequency`. -/
theorem transitionFrequency_error_invalid (d : Device) (f : JSNum)
    (s : EngineState) (e : EngineError) (hAPI : d.hasAPI = true)
    (hpe : transitionFrequency d f s = .error e) :
    e = .invalidFrequency f := by
  by_cases hf : isValidFrequency f = true
  · obtain ⟨r, hr⟩ := transitionFrequency_total d f s hAPI hf
    rw [hr] at hpe
    exact Except.noConfusion hpe
  · have hval : isValidFrequency f = false := by
      cases hb : isValidFrequency f
      · rfl
      · exact absurd hb hf
    have hcond : (!isValidFrequency f) = true := by simp [hval]
    unfold transitionFrequency at hpe
    rw [if_pos hcond] at hpe
    exact (Except.error.inj hpe).symm

/-! ### Claim theorems -/

/-- C1: Mutual exclusion of voices.  Starting from the initial engine state,
after any finite serialized history of `playFrequency` / `transitionFrequency`
/ `stopSound` calls (plus `setVolume` / `setMuteState` and event-loop
firings) has settled — every scheduled oscillator stop and every deferred
cleanup timer has fired — at most one ToneVoice remains connected to the
GainControl node.  Moreover, at any point at most `1 + (pending cleanup
timers)` voices are connected, so during a single in-flight crossfade (one
pending cleanup timer) at most two are connected transiently.  The device is
assumed not to throw from `stop()` / `disconnect()` (the nominal Web Audio
behaviour). -/
theorem c1_voice_mutual_exclusion (d : Device) (evs : List Ev)
    (hst : d.stopThrows = false) (hdt : d.disconnectThrows = false) :
    (run d initState evs).connected.card ≤
      1 + (run d initState evs).timers.length ∧
    ((run d initState evs).timers.length ≤ 1 →
      (run d initState evs).connected.card ≤ 2) ∧
    ((run d initState evs).timers = [] →
      (run d initState evs).stopsScheduled = [] →
      (run d initState evs).connected.card ≤ 1) := by
  obtain ⟨_, h2⟩ := inv_run d hst hdt evs initState inv_initState
  have hcard1 : (run d initState evs).oscillator.toFinset.card ≤ 1 := by
    cases (run d initState evs).oscillator <;> simp [Option.toFinset]
  have hcard2 :
      ((run d initState evs).timers.map Prod.snd).toFinset.card ≤
        (run d initState evs).timers.length := by
    calc ((run d initState evs).timers.map Prod.snd).toFinset.card
        ≤ ((run d initState evs).timers.map Prod.snd).length :=
          List.toFinset_card_le _
      _ = (run d initState evs).timers.length := List.length_map _ _
  have hbound : (run d initState evs).connected.card ≤
      1 + (run d initState evs).timers.length := by
    have hsub : (run d initState evs).connected ⊆
        (run d initState evs).oscillator.toFinset ∪
        ((run d initState evs).timers.map Prod.snd).toFinset := by
      intro v hv
      rcases h2 v hv with hcur | htim
      · refine Finset.mem_union_left _ ?_
        rw [hcur]
        simp [Option.toFinset]
      · exact Finset.mem_union_right _ (List.mem_toFinset.mpr htim)
    calc (run d initState evs).connected.card
        ≤ ((run d initState evs).oscillator.toFinset ∪
           ((run d initState evs).timers.map Prod.snd).toFinset).card :=
          Finset.card_le_card hsub
      _ ≤ (run d initState evs).oscillator.toFinset.card +
           ((run d initState evs).timers.map Prod.snd).toFinset.card :=
          Finset.card_union_le _ _
      _ ≤ 1 + (run d initState evs).timers.length :=
          Nat.add_le_add hcard1 hcard2
  refine ⟨hbound, fun hone => ?_, fun hempty _ => ?_⟩
  · calc (run d initState evs).connected.card
        ≤ 1 + (run d initState evs).timers.length := hbound
      _ ≤ 2 := by omega
  · have hsub : (run d initState evs).connected ⊆
        (run d initState evs).oscillator.toFinset := by
      intro v hv
      rcases h2 v hv with hcur | htim
      · rw [hcur]
        simp [Option.toFinset]
      · rw [hempty] at htim
        simp at htim
    calc (run d initState evs).connected.card
        ≤ (run d initState evs).oscillator.toFinset.card :=
          Finset.card_le_card hsub
      _ ≤ 1 := hcard1

/-- C1 witness: the hypotheses of `c1_voice_mutual_exclusion` hold at the
nominal device and the settled conclusion evaluates on `evsC1`. -/
theorem c1_voice_mutual_exclusion_witness :
    devNominal.stopThrows = false ∧ devNominal.disconnectThrows = false ∧
    (run devNominal initState evsC1).connected.card ≤ 1 :=
  ⟨rfl, rfl,
   (c1_voice_mutual_exclusion devNominal evsC1 rfl rfl).2.2
     (by decide) (by decide)⟩

/-- C6: `play(frequencyHz)` (and equally `transition`) rejects with the
`Invalid frequency` error, with no state change, if and only if the
frequency is not a finite positive number below the 20000 Hz audible
ceiling; in particular -5, 0, NaN and 25000 are rejected while 432 resolves
(on a platform with an audio API). -/
theorem c6_frequency_validation (d : Device) (f : JSNum) (s : EngineState) :
    ((∃ g, playFrequency d f s = .error (.invalidFrequency g)) ↔
      isValidFrequency f = false) ∧
    ((∃ g, transitionFrequency d f s = .error (.invalidFrequency g)) ↔
      isValidFrequency f = false) ∧
    (isValidFrequency f = false →
      playFrequency d f s = .error (.invalidFrequency f) ∧
      transitionFrequency d f s = .error (.invalidFrequency f) ∧
      step d s (.play f) = s ∧ step d s (.transition f) = s) ∧
    isValidFrequency (.fin (-5)) = false ∧
    isValidFrequency (.fin 0) = false ∧
    isValidFrequency .nan = false ∧
    isValidFrequency (.fin 25000) = false ∧
    isValidFrequency (.fin 432) = true ∧
    (∃ r, playFrequency devNominal (.fin 432) initState = .ok r) := by
  refine ⟨playFrequency_invalid_iff d f s,
          transitionFrequency_invalid_iff d f s,
          ?_, by decide, by decide, by decide, by decide, by decide,
          ⟨_, rfl⟩⟩
  intro hval
  have hcond : (!isValidFrequency f) = true := by simp [hval]
  have hplay : playFrequency d f s = .error (.invalidFrequency f) := by
    unfold playFrequency
    rw [if_pos hcond]
  have htrans : transitionFrequency d f s = .error (.invalidFrequency f) := by
    unfold transitionFrequency
    rw [if_pos hcond]
  refine ⟨hplay, htrans, ?_, ?_⟩
  · show (match playFrequency d f s with
          | .ok (s1, _) => s1
          | .error _ => s) = s
    rw [hplay]
  · show (match transitionFrequency d f s with
          | .ok (s1, _) => s1
          | .error _ => s) = s
    rw [htrans]

/-- C8: for all `percent` in [0, 100] (values outside being clamped into the
range) the internal gain ceiling computed by `setVolume` equals
`percent / 100 * 0.3`, so it lies in [0, 0.3] and is linear in `percent`;
and the ceiling is exactly the value `setVolume` ramps GainControl to. -/
theorem c8_volume_ceiling_linear (p : ℚ) (h0 : 0 ≤ p) (h1 : p ≤ 100) :
    audioVolumeOf p = p / 100 * (3/10) ∧
    0 ≤ audioVolumeOf p ∧ audioVolumeOf p ≤ 3/10 ∧
    (∀ q : ℚ, audioVolumeOf q = audioVolumeOf (max 0 (min 100 q))) ∧
    (∀ s : EngineState, s.ctxCreated = true →
      (setVolume p s).schedule = s.schedule ++
        [GainEvent.setValueAtTime s.gainValue s.audioNow,
         GainEvent.linearRampToValueAtTime (audioVolumeOf p)
           (s.audioNow + 1/10)]) := by
  have hclamp : max 0 (min 100 p) = p := by
    rw [min_eq_right h1, max_eq_right h0]
  have hmain : audioVolumeOf p = p / 100 * (3/10) := by
    unfold audioVolumeOf
    rw [hclamp]
  refine ⟨hmain, ?_, ?_, ?_, ?_⟩
  · rw [hmain]
    positivity
  · rw [hmain]
    linarith
  · intro q
    unfold audioVolumeOf
    have hm1 : max 0 (min 100 q) ≤ 100 :=
      max_le (by norm_num) (min_le_left _ _)
    have hm0 : (0:ℚ) ≤ max 0 (min 100 q) := le_max_left _ _
    rw [min_eq_right hm1, max_eq_right hm0]
  · intro s hs
    simp [setVolume, hs]

/-- C8 witness: hypotheses and the linearity equation at percent 50. -/
theorem c8_volume_ceiling_linear_witness :
    (0:ℚ) ≤ 50 ∧ (50:ℚ) ≤ 100 ∧
    audioVolumeOf 50 = 50 / 100 * (3/10) :=
  ⟨by norm_num, by norm_num,
   (c8_volume_ceiling_linear 50 (by norm_num) (by norm_num)).1⟩

/-- C9 counterexample: in the concrete idle state `sIdle` (device created,
no voice active, gain 0) `setVolume 50` does not set GainControl directly to
the new ceiling: `gain.value` is left untouched and a linear ramp to the
ceiling over the fixed 0.1 s window is scheduled instead — the same ramp
path taken when a voice is active, refuting the claimed
set-directly-when-idle branch. -/
theorem c9_direct_set_counterexample :
    sIdle.oscillator = none ∧ sIdle.ctxCreated = true ∧
    (setVolume 50 sIdle).gainValue = sIdle.gainValue ∧
    audioVolumeOf 50 ≠ sIdle.gainValue ∧
    (setVolume 50 sIdle).schedule =
      [GainEvent.setValueAtTime sIdle.gainValue sIdle.audioNow,
       GainEvent.linearRampToValueAtTime (audioVolumeOf 50)
         (sIdle.audioNow + 1/10)] := by
  have hvol : audioVolumeOf 50 = 3/20 := by
    unfold audioVolumeOf
    rw [min_eq_right (by norm_num : (50:ℚ) ≤ 100),
        max_eq_right (by norm_num : (0:ℚ) ≤ 50)]
    norm_num
  refine ⟨rfl, rfl, ?_, ?_, ?_⟩
  · simp [setVolume, sIdle]
  · rw [hvol]
    show (3/20 : ℚ) ≠ sIdle.gainValue
    norm_num [sIdle]
  · simp [setVolume, sIdle]

/-- C9 (amended): for every percent, `setVolume` is a no-op on the audio
graph when the gain node does not yet exist, and otherwise always ramps
GainControl to the new ceiling over the fixed 0.1 s window anchored at the
device clock — whether or not a voice is active (there is no direct-set
branch); `gain.value` itself is not assigned. -/
theorem c9_setVolume_always_ramps (p : ℚ) (s : EngineState)
    (hctx : s.ctxCreated = true) :
    (setVolume p s).schedule = s.schedule ++
      [GainEvent.setValueAtTime s.gainValue s.audioNow,
       GainEvent.linearRampToValueAtTime (audioVolumeOf p)
         (s.audioNow + 1/10)] ∧
    (setVolume p s).gainValue = s.gainValue ∧
    (setVolume p s).oscillator = s.oscillator ∧
    (setVolume p s).isPlaying = s.isPlaying ∧
    (setVolume p s).storedVolume = some p := by
  simp [setVolume, hctx]

/-- C9 witness: the amended behaviour evaluated at percent 50 in the idle
state (no voice active). -/
theorem c9_setVolume_always_ramps_witness :
    sIdle.ctxCreated = true ∧
    (setVolume 50 sIdle).schedule = sIdle.schedule ++
      [GainEvent.setValueAtTime sIdle.gainValue sIdle.audioNow,
       GainEvent.linearRampToValueAtTime (audioVolumeOf 50)
         (sIdle.audioNow + 1/10)] :=
  ⟨rfl, (c9_setVolume_always_ramps 50 sIdle rfl).1⟩

/-- C10: at every quiescent point of every history, `getIsPlaying` returns
true exactly when the module-level current-voice reference is non-null
(stated as a Boolean equation); and `setVolume` / `setMuteState` (on success
and error paths alike) never change either PlaybackState field. -/
theorem c10_isPlaying_iff_voice (d : Device) (evs : List Ev) (q : ℚ)
    (b : Bool) (s : EngineState) :
    getIsPlaying (run d initState evs) =
      (run d initState evs).oscillator.isSome ∧
    (step d s (.setVol q)).oscillator = s.oscillator ∧
    (step d s (.setVol q)).isPlaying = s.isPlaying ∧
    (step d s (.setMute b)).oscillator = s.oscillator ∧
    (step d s (.setMute b)).isPlaying = s.isPlaying :=
  ⟨playInv_run d evs initState rfl,
   (setVolume_playback q s).1, (setVolume_playback q s).2,
   (setMuteState_playback d b s).1, (setMuteState_playback d b s).2⟩

/-- C2: a `transition(frequencyHz)` call made while a voice is active
creates and starts a new sine voice immediately and makes it the current
voice in PlaybackState at creation time (while the crossfade cleanup timer
is still pending, i.e. not at crossfade completion); it anchors the gain at
its current value and schedules the ramp down to 0 at the midpoint of the
0.35 s crossfade window and back up to the target volume at its end, all on
the device clock; it schedules the outgoing voice stop exactly at the
crossfade midpoint and defers its disconnect via a delayed callback 275 ms
later — strictly after the 175 ms scheduled-stop offset; `isPlaying`
remains true and the operation consumes no waited time. -/
theorem c2_transition_crossfade (d : Device) (f : JSNum) (s : EngineState)
    (v : ℕ) (hf : isValidFrequency f = true) (hosc : s.oscillator = some v)
    (hp : s.isPlaying = true) (hctx : s.ctxCreated = true)
    (hsus : s.suspended = false) (hst : d.stopThrows = false) :
    transitionFrequency d f s = .ok (transCore d f v s, none) ∧
    (transCore d f v s).oscillator = some s.nextId ∧
    (transCore d f v s).voices = ⟨s.nextId, f, .sine⟩ :: s.voices ∧
    s.nextId ∈ (transCore d f v s).started ∧
    s.nextId ∈ (transCore d f v s).connected ∧
    (transCore d f v s).isPlaying = true ∧
    (transCore d f v s).schedule = s.schedule ++
      [GainEvent.setValueAtTime s.gainValue s.audioNow,
       GainEvent.linearRampToValueAtTime 0 (s.audioNow + 35/100/2),
       GainEvent.linearRampToValueAtTime (getVolume s / 100 * (3/10))
         (s.audioNow + 35/100)] ∧
    (transCore d f v s).stopsScheduled =
      (v, s.audioNow + 35/100/2) :: s.stopsScheduled ∧
    (transCore d f v s).timers =
      (35/100/2*1000 + 100, v) :: s.timers ∧
    (35/100/2 : ℚ) * 1000 < 35/100/2*1000 + 100 ∧
    (transCore d f v s).audioNow = s.audioNow ∧
    (transCore d f v s).wallNow = s.wallNow := by
  refine ⟨transitionFrequency_warm d f s v hf hosc hp hctx hsus,
          rfl, rfl, Finset.mem_insert_self _ _, Finset.mem_insert_self _ _,
          rfl, rfl, ?_, rfl, by norm_num, rfl, rfl⟩
  simp [transCore, hst]

/-- C2 witness: the crossfade branch evaluated on the concrete warm state
`sWarm` at 528 Hz. -/
theorem c2_transition_crossfade_witness :
    (transCore devNominal (.fin 528) 0 sWarm).timers =
      (35/100/2*1000 + 100, 0) :: sWarm.timers ∧
    (transCore devNominal (.fin 528) 0 sWarm).oscillator =
      some sWarm.nextId :=
  ⟨(c2_transition_crossfade devNominal (.fin 528) sWarm 0
      (by decide) rfl rfl rfl rfl rfl).2.2.2.2.2.2.2.2.1,
   (c2_transition_crossfade devNominal (.fin 528) sWarm 0
      (by decide) rfl rfl rfl rfl rfl).2.1⟩

/-- C3: for a valid frequency, `play` (after its `ensureAudioContext` call,
which is the identity on a warm device) behaves as follows.  Cold start
(state `t`, no active voice): it creates a fresh sine ToneVoice at the
requested frequency, connects and starts it, makes it current, schedules the
gain ramp from 0 to the stored target volume over the fixed 0.5 s window
anchored at the device clock, sets `isPlaying`, and returns the wall-clock
(capture-time) timestamp — not an audio-clock value.  Restart (state `s`,
voice `v` active): it first runs `stopSound` to completion — `v` is stopped
and disconnected with no crossfade machinery (no timer, no scheduled stop) —
and only then starts the fresh voice, so the returned wall clock reflects
the awaited 0.8 s fade. -/
theorem c3_play_behaviour (d : Device) (f : JSNum) (s t : EngineState)
    (v : ℕ) (hf : isValidFrequency f = true)
    (hosc : s.oscillator = some v) (hp : s.isPlaying = true)
    (hctx : s.ctxCreated = true) (hsus : s.suspended = false)
    (hst : d.stopThrows = false) (hdt : d.disconnectThrows = false)
    (htosc : t.oscillator = none) (htctx : t.ctxCreated = true)
    (htsus : t.suspended = false) :
    playFrequency d f t = .ok (playCore f t) ∧
    (playCore f t).1.oscillator = some t.nextId ∧
    (playCore f t).1.voices = ⟨t.nextId, f, .sine⟩ :: t.voices ∧
    t.nextId ∈ (playCore f t).1.started ∧
    t.nextId ∈ (playCore f t).1.connected ∧
    (playCore f t).1.isPlaying = true ∧
    (playCore f t).1.schedule = t.schedule ++
      [GainEvent.setValueAtTime 0 t.audioNow,
       GainEvent.linearRampToValueAtTime (getVolume t / 100 * (3/10))
         (t.audioNow + 5/10)] ∧
    (playCore f t).2 = t.wallNow ∧
    playFrequency d f s = .ok (playCore f ((stopSound d s).1)) ∧
    (stopSound d s).1.oscillator = none ∧
    v ∈ (stopSound d s).1.stopped ∧
    (stopSound d s).1.connected = s.connected.erase v ∧
    (stopSound d s).1.timers = s.timers ∧
    (stopSound d s).1.stopsScheduled = s.stopsScheduled ∧
    (stopSound d s).1.audioNow = s.audioNow + 8/10 ∧
    (playCore f ((stopSound d s).1)).2 = s.wallNow + 8/10 * 1000 := by
  refine ⟨playFrequency_cold d f t hf htosc htctx htsus,
          rfl, rfl, Finset.mem_insert_self _ _, Finset.mem_insert_self _ _,
          rfl, rfl, rfl,
          playFrequency_restart d f s v hf hosc hctx hsus,
          ?_, ?_, ?_, ?_, ?_, ?_, ?_⟩ <;>
    simp [stopSound, stopTeardown, advanceClocks, stopFadeOut, playCore,
          hosc, hp, hst, hdt]

/-- C3 witness: the cold-start equation evaluated on the concrete idle
state at 432 Hz, and the restart equation on the warm state. -/
theorem c3_play_behaviour_witness :
    playFrequency devNominal (.fin 432) sIdle =
      .ok (playCore (.fin 432) sIdle) ∧
    (playCore (.fin 432) sIdle).2 = sIdle.wallNow :=
  ⟨(c3_play_behaviour devNominal (.fin 432) sWarm sIdle 0
      (by decide) rfl rfl rfl rfl rfl rfl rfl rfl rfl).1,
   (c3_play_behaviour devNominal (.fin 432) sWarm sIdle 0
      (by decide) rfl rfl rfl rfl rfl rfl rfl rfl rfl).2.2.2.2.2.2.2.1⟩

/-- C4 counterexample: on a platform without an audio API, `play(432)` — a
perfectly valid frequency — rejects with the uncaught device-construction
error, which is not an `InvalidFrequency` error.  This refutes the claim
that for every behaviour of the audio device the only rejection is
`InvalidFrequency`. -/
theorem c4_no_api_rejection_counterexample :
    isValidFrequency (.fin 432) = true ∧
    playFrequency devNoAPI (.fin 432) initState =
      .error .deviceUnavailable ∧
    ∀ g, EngineError.deviceUnavailable ≠ .invalidFrequency g := by
  refine ⟨by decide, rfl, ?_⟩
  intro g h
  exact EngineError.noConfusion h

/-- C4 (amended): provided the platform has an audio API, the only
rejection `play` or `transition` can surface is `InvalidFrequency`; every
audio-device-level failure (declined resume, throwing `stop()` or
`disconnect()` during teardown) is absorbed internally and the operations
resolve on valid input.  `stopSound` never rejects under any device
behaviour — its embedding is total because every path of its body is inside
the catch.  Without an audio API, however, the context-construction error
propagates out of `play`/`transition`. -/
theorem c4_rejection_policy (d : Device) (f : JSNum) (s : EngineState)
    (e : EngineError) (hAPI : d.hasAPI = true) :
    (playFrequency d f s = .error e → e = .invalidFrequency f) ∧
    (transitionFrequency d f s = .error e → e = .invalidFrequency f) ∧
    (isValidFrequency f = true →
      (∃ r, playFrequency d f s = .ok r) ∧
      (∃ r, transitionFrequency d f s = .ok r)) :=
  ⟨fun hpe => playFrequency_error_invalid d f s e hAPI hpe,
   fun hpe => transitionFrequency_error_invalid d f s e hAPI hpe,
   fun hf => ⟨playFrequency_total d f s hAPI hf,
              transitionFrequency_total d f s hAPI hf⟩⟩

/-- C4 witness: on a device with an audio API but a blocked resume and
throwing teardown calls, `play(432)` still resolves. -/
theorem c4_rejection_policy_witness :
    Device.hasAPI ⟨true, true, false, true, true⟩ = true ∧
    ∃ r, playFrequency ⟨true, true, false, true, true⟩ (.fin 432)
      initState = .ok r :=
  ⟨rfl,
   ((c4_rejection_policy ⟨true, true, false, true, true⟩ (.fin 432)
      initState .deviceUnavailable rfl).2.2 (by decide)).1⟩

/-- C5 counterexample: in the concrete playing state `sWarm`, the part of
`stopSound` before its awaited 0.8 s delay (`stopFadeOut`) leaves both
PlaybackState fields untouched — the voice is still current and `isPlaying`
is still true when the operation reaches its awaited delay — while the
completed `stopSound` has cleared them.  This refutes the claim that every
operation updates PlaybackState before reaching any awaited delay. -/
theorem c5_update_before_await_counterexample :
    sWarm.oscillator = some 0 ∧ sWarm.isPlaying = true ∧
    (stopFadeOut sWarm).oscillator = some 0 ∧
    (stopFadeOut sWarm).isPlaying = true ∧
    (stopSound devNominal sWarm).1.oscillator = none ∧
    (stopSound devNominal sWarm).1.isPlaying = false := by
  refine ⟨rfl, rfl, rfl, rfl, ?_, ?_⟩ <;>
    simp [stopSound, stopTeardown, advanceClocks, stopFadeOut, sWarm,
          devNominal]

/-- C5 (amended): `transition` (while a voice is active) updates
PlaybackState with no awaited delay at all — the new voice is current and
`isPlaying` true in the returned state, with both clocks unchanged — and
`play` likewise applies its updates within the operation; `stop`, however,
leaves PlaybackState untouched in its segment before the awaited 0.8 s fade
delay and clears it only afterwards, together with the deferred teardown
(the completed call's wall clock shows the 800 ms wait). -/
theorem c5_state_update_timing (d : Device) (f : JSNum) (s : EngineState)
    (v : ℕ) (hf : isValidFrequency f = true) (hosc : s.oscillator = some v)
    (hp : s.isPlaying = true) (hctx : s.ctxCreated = true)
    (hsus : s.suspended = false) :
    transitionFrequency d f s = .ok (transCore d f v s, none) ∧
    (transCore d f v s).oscillator = some s.nextId ∧
    (transCore d f v s).isPlaying = true ∧
    (transCore d f v s).audioNow = s.audioNow ∧
    (transCore d f v s).wallNow = s.wallNow ∧
    (stopFadeOut s).oscillator = s.oscillator ∧
    (stopFadeOut s).isPlaying = s.isPlaying ∧
    (stopSound d s).1.oscillator = none ∧
    (stopSound d s).1.isPlaying = false ∧
    (stopSound d s).1.wallNow = s.wallNow + 8/10 * 1000 := by
  have hadv : (advanceClocks (8/10) (stopFadeOut s)).oscillator = some v :=
    hosc
  obtain ⟨hA, hB, _, hW, _, _⟩ :=
    stopTeardown_of_some d (advanceClocks (8/10) (stopFadeOut s)) v hadv
  have hres := (stopSound_active d s v hosc hp).1
  refine ⟨transitionFrequency_warm d f s v hf hosc hp hctx hsus,
          rfl, rfl, rfl, rfl, rfl, rfl, ?_, ?_, ?_⟩
  · rw [hres]
    exact hA
  · rw [hres]
    exact hB
  · rw [hres, hW]
    rfl

/-- C5 witness: the amended timing behaviour evaluated on `sWarm`. -/
theorem c5_state_update_timing_witness :
    (stopFadeOut sWarm).oscillator = sWarm.oscillator ∧
    (stopSound devNominal sWarm).1.wallNow = sWarm.wallNow + 8/10 * 1000 :=
  ⟨(c5_state_update_timing devNominal (.fin 528) sWarm 0
      (by decide) rfl rfl rfl rfl).2.2.2.2.2.1,
   (c5_state_update_timing devNominal (.fin 528) sWarm 0
      (by decide) rfl rfl rfl rfl).2.2.2.2.2.2.2.2.2⟩

/-- C7: whenever `stop` is entered with an active voice and an error is
raised while stopping or disconnecting it (a throwing `stop()` or
`disconnect()`), the error is caught and the state is forcibly normalized:
the current voice is cleared to null and `isPlaying` set to false.  When
`stop()` throws, the voice is provably not disconnected (`connected` is
unchanged) — yet the state is still normalized.  In general `stopSound`
never terminates with `isPlaying` true while a voice reference remains. -/
theorem c7_stop_error_normalizes (d : Device) (s t : EngineState) (v : ℕ)
    (hosc : s.oscillator = some v) (hp : s.isPlaying = true)
    (herr : d.stopThrows = true ∨ d.disconnectThrows = true) :
    (stopSound d s).1.oscillator = none ∧
    (stopSound d s).1.isPlaying = false ∧
    (d.stopThrows = true → (stopSound d s).1.connected = s.connected) ∧
    ((stopSound d t).1.isPlaying = true →
      (stopSound d t).1.oscillator = none) := by
  have hadv : (advanceClocks (8/10) (stopFadeOut s)).oscillator = some v :=
    hosc
  obtain ⟨hA, hB, hC, _⟩ :=
    stopTeardown_of_some d (advanceClocks (8/10) (stopFadeOut s)) v hadv
  have hres := (stopSound_active d s v hosc hp).1
  refine ⟨by rw [hres]; exact hA, by rw [hres]; exact hB, ?_, ?_⟩
  · intro hthrow
    rw [hres, hC hthrow]
    rfl
  · cases htosc : t.oscillator with
    | none =>
      have hres2 : stopSound d t = (t, none) := by simp [stopSound, htosc]
      rw [hres2]
      intro _
      exact htosc
    | some w =>
      cases htip : t.isPlaying with
      | false =>
        have hres2 : stopSound d t = (t, none) := by simp [stopSound, htip]
        rw [hres2]
        intro hh
        rw [htip] at hh
        exact Bool.noConfusion hh
      | true =>
        have hadv2 : (advanceClocks (8/10) (stopFadeOut t)).oscillator =
            some w := htosc
        have hres2 := (stopSound_active d t w htosc htip).1
        rw [hres2]
        intro _
        exact (stopTeardown_of_some d _ w hadv2).1

/-- C7 witness: the error path evaluated with a device whose teardown calls
throw, on the concrete playing state `sWarm`. -/
theorem c7_stop_error_normalizes_witness :
    (stopSound devFaulty sWarm).1.oscillator = none ∧
    (stopSound devFaulty sWarm).1.isPlaying = false ∧
    (stopSound devFaulty sWarm).1.connected = sWarm.connected :=
  ⟨(c7_stop_error_normalizes devFaulty sWarm sIdle 0 rfl rfl
      (Or.inl rfl)).1,
   (c7_stop_error_normalizes devFaulty sWarm sIdle 0 rfl rfl
      (Or.inl rfl)).2.1,
   (c7_stop_error_normalizes devFaulty sWarm sIdle 0 rfl rfl
      (Or.inl rfl)).2.2.1 rfl⟩

/-- C6 witness: two of the literal validation facts obtained through the
theorem at concrete arguments. -/
theorem c6_frequency_validation_witness :
    isValidFrequency (.fin 432) = true ∧ isValidFrequency .nan = false :=
  ⟨(c6_frequency_validation devNominal .nan initState).2.2.2.2.2.2.2.1,
   (c6_frequency_validation devNominal .nan initState).2.2.2.2.2.1⟩

/-- C10 witness: the coupling equation evaluated on the concrete settled
history `evsC1`. -/
theorem c10_isPlaying_iff_voice_witness :
    getIsPlaying (run devNominal initState evsC1) =
      (run devNominal initState evsC1).oscillator.isSome :=
  (c10_isPlaying_iff_voice devNominal evsC1 50 true sIdle).1

end ToneEngine
